import Mathlib

/-!
Verification of the openCTI collection-orchestration code against its
natural-language specification.

The definitions below are a shallow embedding of the Python sources:

* `src/collectors/abuseipdb_collector.py` — the AbuseIPDB continuous
  collector (discovery query, private-IP filter, invalid-IP marking,
  report upsert, per-cycle sleep delays, stop flag, close/re-setup guard);
* `src/collectors/virustotal_collector.py` — the VirusTotal continuous
  collector (candidate query, upsert with refreshed `update_time`,
  per-cycle delays, stop);
* `src/collectors/phishing_data_collector.py` and
  `src/services/phishing_domain.py` — record-by-record artifact writing
  and the newest-file reader;
* `src/app.py` — the scheduled-job wrappers and the scheduler loop.

Database tables are modelled as association lists keyed by the SQL
primary key, SQL `ORDER BY score DESC` as an insertion sort on the score
column, time as natural-number seconds, and the process randomness source
as an explicit argument where the Python code draws from `random`.
-/

/-! ## Generic score-descending sort (models SQL `ORDER BY score DESC`) -/

/-- Insert one `(key, score)` row into a score-descending list. -/
def insertDesc (x : String × Int) : List (String × Int) → List (String × Int)
  | [] => [x]
  | y :: ys => if y.2 ≤ x.2 then x :: y :: ys else y :: insertDesc x ys

/-- Sort rows by score, highest first (a model of `ORDER BY score DESC`). -/
def sortDesc : List (String × Int) → List (String × Int)
  | [] => []
  | x :: xs => insertDesc x (sortDesc xs)

/-! ## AbuseIPDB collector data model (`src/collectors/abuseipdb_collector.py`) -/

/-- One row of the `AbuseIPDB_IP_Report` table (primary key `ip`);
the `label` column stores the JSON-encoded label. -/
structure ReportRow where
  ip : String
  isp : String
  country : String
  score : Int
  label : String
  update_time : String
deriving DecidableEq, Repr

/-- The database state seen by the AbuseIPDB collector:
`Combined_IP_Score` rows as `(ip, score)`, the `AbuseIPDB_IP_Report`
table, and the `Invalid_IPs` table as the list of marked addresses. -/
structure AbuseDB where
  combinedScores : List (String × Int)
  abuseReport : List ReportRow
  invalidIPs : List String
deriving DecidableEq, Repr

/-- `cs` begins with the characters `ps`. -/
def charsStartWith : List Char → List Char → Bool
  | [], _ => true
  | _ :: _, [] => false
  | p :: ps, c :: cs => p = c && charsStartWith ps cs

/-- The string `s` begins with the literal `pre` (one regex alternative
such as `0\.` anchored at the start). -/
def strStartsWith (s pre : String) : Bool :=
  charsStartWith pre.toList s.toList

/-- The `172.(1[6-9]|2[0-9]|3[01])\.` alternative of `invalid_ip_pattern`:
"172." followed by a two-digit number in 16–31 followed by ".". -/
def matches172Range (ip : String) : Bool :=
  match ip.toList with
  | '1' :: '7' :: '2' :: '.' :: d1 :: d2 :: '.' :: _ =>
      (d1 = '1' && ('6' ≤ d2 && d2 ≤ '9')) ||
      (d1 = '2' && ('0' ≤ d2 && d2 ≤ '9')) ||
      (d1 = '3' && (d2 = '0' || d2 = '1'))
  | _ => false

/-- `invalid_ip_pattern.match(ip)` of the collector: the anchored regex
`^(0\.|10\.|127\.|169\.254\.|172\.(1[6-9]|2[0-9]|3[01])\.|192\.168\.|224\.|240\.)`. -/
def matchesPrivatePattern (ip : String) : Bool :=
  strStartsWith ip "0." || strStartsWith ip "10." || strStartsWith ip "127." ||
  strStartsWith ip "169.254." || matches172Range ip ||
  strStartsWith ip "192.168." || strStartsWith ip "224." ||
  strStartsWith ip "240."

/-- `AbuseIPDBCollector.is_valid_public_ip`: `not invalid_ip_pattern.match(ip)`. -/
def is_valid_public_ip (ip : String) : Bool := !(matchesPrivatePattern ip)

/-- The `WHERE NOT EXISTS … AND NOT EXISTS …` condition of the discovery
query in `get_ips_to_scrape`: the IP has no `AbuseIPDB_IP_Report` row and
is not in `Invalid_IPs`. -/
def eligibleRow (db : AbuseDB) (r : String × Int) : Bool :=
  !(db.abuseReport.any (fun a => a.ip = r.1)) &&
  !(db.invalidIPs.any (fun v => v = r.1))

/-- `AbuseIPDBCollector.get_ips_to_scrape`: select `Combined_IP_Score`
rows with no report and not marked invalid, order by score descending,
take `batch_size`, keep the addresses passing `is_valid_public_ip`. -/
def get_ips_to_scrape (db : AbuseDB) (batch : Nat) : List String :=
  (((sortDesc (db.combinedScores.filter (eligibleRow db))).take batch).map
    Prod.fst).filter is_valid_public_ip

/-- `AbuseIPDBCollector.mark_ip_as_invalid`: `INSERT INTO Invalid_IPs …
ON DUPLICATE KEY UPDATE ip_address = VALUES(ip_address)` — a no-op when
the address is already present, an append otherwise. -/
def mark_ip_as_invalid (db : AbuseDB) (ip : String) : AbuseDB :=
  if db.invalidIPs.any (fun v => v = ip) then db
  else { db with invalidIPs := db.invalidIPs ++ [ip] }

/-- The dict returned by a successful `scrape_ip_data` call. -/
structure ScrapedData where
  ip : String
  isp : String
  score : Int
  country : String
  label : Option String
  update_time : String
deriving DecidableEq, Repr

/-- Escape of backslash and double quote, as `json.dumps` applies to a
Python string value. -/
def jsonEscape (s : String) : String :=
  String.mk (s.toList.foldr
    (fun c acc =>
      match c with
      | '\\' => '\\' :: '\\' :: acc
      | '"' => '\\' :: '"' :: acc
      | c => c :: acc) [])

/-- `json.dumps` of a string value. -/
def jsonDumpsStr (s : String) : String := "\"" ++ jsonEscape s ++ "\""

/-- The label normalization at the top of `insert_data`: a string label is
JSON-encoded directly; a `None` label takes the
`json.dumps(\x7b"value": str(label)\x7d)` branch, producing
`\x7b"value": "None"\x7d`. -/
def encodeLabel : Option String → String
  | some s => jsonDumpsStr s
  | none => "\x7b\"value\": \"None\"\x7d"

/-- The `AbuseIPDB_IP_Report` row written by `insert_data` for one
scraped dict. -/
def mkRow (d : ScrapedData) : ReportRow :=
  { ip := d.ip, isp := d.isp, country := d.country, score := d.score,
    label := encodeLabel d.label, update_time := d.update_time }

/-- `INSERT … ON DUPLICATE KEY UPDATE` keyed by `ip_address`: replace the
row with the matching key when one exists, append otherwise. -/
def insertRow (t : List ReportRow) (r : ReportRow) : List ReportRow :=
  if t.any (fun x => x.ip = r.ip) then
    t.map (fun x => if x.ip = r.ip then r else x)
  else t ++ [r]

/-- `AbuseIPDBCollector.insert_data` applied to the report table. -/
def insert_data (db : AbuseDB) (d : ScrapedData) : AbuseDB :=
  { db with abuseReport := insertRow db.abuseReport (mkRow d) }

/-- The outcome of the page fetch inside `scrape_ip_data`: a loaded report
page with its extracted fields, a `TimeoutException` (the code treats it
as cookie expiry or a Cloudflare challenge), or any other exception. -/
inductive FetchOutcome where
  | page (isp : String) (score : Int) (country : String) (label : String)
  | timeoutOrChallenge
  | otherError (msg : String)
deriving DecidableEq, Repr

/-- Whether the fetch ended in the `except` branch of `scrape_ip_data`. -/
def FetchOutcome.isFailure : FetchOutcome → Bool
  | .page .. => false
  | .timeoutOrChallenge => true
  | .otherError _ => true

/-- `AbuseIPDBCollector.scrape_ip_data`: on a loaded page it returns the
stripped fields (an empty label becomes `None`); on any exception — the
timeout / Cloudflare-challenge case included — it calls
`mark_ip_as_invalid(ip)` and returns `None`. -/
def scrape_ip_data (db : AbuseDB) (ip : String) (res : FetchOutcome)
    (now : String) : AbuseDB × Option ScrapedData :=
  match res with
  | .page isp score country label =>
      (db, some { ip := ip, isp := isp.trim, score := score,
                  country := country.trim,
                  label := if label.isEmpty then none else some label.trim,
                  update_time := now })
  | .timeoutOrChallenge => (mark_ip_as_invalid db ip, none)
  | .otherError _ => (mark_ip_as_invalid db ip, none)

/-! ## Per-cycle delays of the continuous loops -/

/-- Outcome of one `collect_continuous` cycle of the AbuseIPDB collector. -/
inductive AbuseOutcome where
  | items
  | empty
  | error
deriving DecidableEq, Repr

/-- The sleep chosen by `AbuseIPDBCollector.collect_continuous` after one
cycle: `time.sleep(30)` after a cycle with results, `time.sleep(300)`
after an empty cycle, `time.sleep(60)` in the `except` branch. The `rng`
argument is the process randomness source, which this code path never
consults. -/
def abuseipdb_cycle_delay (o : AbuseOutcome) (_rng : Nat) : Nat :=
  match o with
  | .items => 30
  | .empty => 300
  | .error => 60

/-- The sleeps of a whole run of AbuseIPDB cycles, one random draw
available per cycle. -/
def abuseipdb_delay_seq (outs : List AbuseOutcome) (rng : Nat → Nat) :
    List Nat :=
  (outs.enum).map (fun p => abuseipdb_cycle_delay p.2 (rng p.1))

/-- Outcome of one `collect_continuous` cycle of the VirusTotal collector. -/
inductive VTOutcome where
  | noIp
  | success
  | scrapeFail
  | exn
deriving DecidableEq, Repr

/-- The sleep chosen by `VirusTotalCollector.collect_continuous`:
`time.sleep(300)` when no IP is due, `time.sleep(random.randint(30, 40))`
after a successful scrape (modelled as `30 + rng % 11`), `time.sleep(60)`
when the scrape returned nothing, and `time.sleep(60)` in the `except`
branch. -/
def vt_cycle_delay (o : VTOutcome) (rng : Nat) : Nat :=
  match o with
  | .noIp => 300
  | .success => 30 + rng % 11
  | .scrapeFail => 60
  | .exn => 60

/-! ## Worker stop and lease state -/

/-- Run-time state of the AbuseIPDB continuous worker: the cooperative
`running` flag and whether the webdriver session and the database
connection are currently open. -/
structure AbuseWorkerState where
  running : Bool
  driverOpen : Bool
  connOpen : Bool
deriving DecidableEq, Repr

/-- `AbuseIPDBCollector.stop_collection`: its body is exactly
`self.running = False`. -/
def abuse_stop_collection (s : AbuseWorkerState) : AbuseWorkerState :=
  { s with running := false }

/-- The `while self.running` guard of `collect_continuous`: a further
cycle (hence a further fetch) starts only while this is true. -/
def abuse_loop_continues (s : AbuseWorkerState) : Bool := s.running

/-- Run-time state of the VirusTotal continuous worker. -/
structure VTWorkerState where
  running : Bool
  driverOpen : Bool
deriving DecidableEq, Repr

/-- `VirusTotalCollector.stop_collection`: sets `running = False`, quits
the driver when present and sets `self.driver = None`. -/
def vt_stop_collection (_s : VTWorkerState) : VTWorkerState :=
  { running := false, driverOpen := false }

/-! ## AbuseIPDB close / re-setup guard (`collect_continuous` + `close`) -/

/-- State relevant to the re-acquisition guard of
`AbuseIPDBCollector.collect_continuous`: whether the `driver` / `conn`
attributes exist on the object (`hasattr`) and whether the underlying
handles are still usable. -/
structure AbuseLoopState where
  hasDriverAttr : Bool
  hasConnAttr : Bool
  driverAlive : Bool
  connAlive : Bool
deriving DecidableEq, Repr

/-- State after `__init__` has run `setup_driver` and `setup_database`. -/
def abuse_init : AbuseLoopState :=
  { hasDriverAttr := true, hasConnAttr := true,
    driverAlive := true, connAlive := true }

/-- `AbuseIPDBCollector.close`: `driver.quit()` / `cur.close()` /
`conn.close()` guarded by `hasattr`; the attributes themselves are never
deleted. -/
def abuse_close (s : AbuseLoopState) : AbuseLoopState :=
  { s with
    driverAlive := if s.hasDriverAttr then false else s.driverAlive,
    connAlive := if s.hasConnAttr then false else s.connAlive }

/-- The guard at the top of each `collect_continuous` cycle:
`if not hasattr(self, 'driver') or not hasattr(self, 'conn'):` re-run
`setup_driver` and `setup_database`; otherwise leave everything as is. -/
def abuse_cycle_setup (s : AbuseLoopState) : AbuseLoopState :=
  if !s.hasDriverAttr || !s.hasConnAttr then
    { hasDriverAttr := true, hasConnAttr := true,
      driverAlive := true, connAlive := true }
  else s

/-! ## VirusTotal collector data model (`src/collectors/virustotal_collector.py`) -/

/-- Database state seen by the VirusTotal collector:
`AbuseIPDB_IP_Report` rows as `(ip_address, score)` and
`VirusTotal_IP_Info` rows as `(ip_address, update_time)`, time in
seconds. -/
structure VTDB where
  abuseReport : List (String × Int)
  vtInfo : List (String × Nat)
deriving DecidableEq, Repr

/-- One day, in seconds, as in `DATE_SUB(NOW(), INTERVAL 1 DAY)`. -/
def oneDay : Nat := 86400

/-- The `WHERE v.ip_address IS NULL OR v.update_time <
DATE_SUB(NOW(), INTERVAL 1 DAY)` condition of `get_ip_from_db` for one
`AbuseIPDB_IP_Report` row after the `LEFT JOIN` on `ip_address`. -/
def vt_eligible (db : VTDB) (now : Nat) (r : String × Int) : Bool :=
  match db.vtInfo.find? (fun v => v.1 = r.1) with
  | none => true
  | some v => decide (v.2 + oneDay < now)

/-- `VirusTotalCollector.get_ip_from_db`: the single (`LIMIT 1`) address
of highest `score` among report rows with no fresh `VirusTotal_IP_Info`
record, or `None` when no row qualifies. -/
def get_ip_from_db (db : VTDB) (now : Nat) : Option String :=
  ((sortDesc (db.abuseReport.filter (vt_eligible db now))).head?).map
    Prod.fst

/-- The `INSERT … ON DUPLICATE KEY UPDATE … update_time =
CURRENT_TIMESTAMP` of `update_db`, restricted to the key and the
timestamp column: replace the keyed row's timestamp with `now`, or
append a fresh row. -/
def vt_upsert (l : List (String × Nat)) (ip : String) (now : Nat) :
    List (String × Nat) :=
  if l.any (fun v => v.1 = ip) then
    l.map (fun v => if v.1 = ip then (ip, now) else v)
  else l ++ [(ip, now)]

/-- `VirusTotalCollector.update_db` on the modelled state. -/
def vt_update_db (db : VTDB) (ip : String) (now : Nat) : VTDB :=
  { db with vtInfo := vt_upsert db.vtInfo ip now }

/-! ## Phishing artifact writing and the newest-file reader -/

/-- Concatenation of the successively written chunks of one file. -/
def concatAll : List String → String
  | [] => ""
  | s :: ss => s ++ concatAll ss

/-- The line `save_to_txt` writes for one `(phishing_url, ip)` record. -/
def phishingLine (r : String × String) : String :=
  "URL: " ++ r.1 ++ ", IP: " ++ r.2 ++ "\n"

/-- The records `save_to_txt` actually writes: those passing
`if phishing_url and ip`. -/
def writtenRecords (records : List (String × String)) :
    List (String × String) :=
  records.filter (fun r => !r.1.isEmpty && !r.2.isEmpty)

/-- Content of the destination file after `open(filename, 'w')` has
truncated it and the first `k` qualifying records have been written —
`save_to_txt` writes record by record directly to the final path. -/
def fileContentAfter (records : List (String × String)) (k : Nat) :
    String :=
  concatAll (((writtenRecords records).take k).map phishingLine)

/-- Content of the destination file once `save_to_txt` has finished. -/
def fileContent (records : List (String × String)) : String :=
  concatAll ((writtenRecords records).map phishingLine)

/-- `max(list_of_files, key=os.path.getctime)`: the first file of
greatest creation time, files given as `(ctime, content)`. -/
def newestFile : List (Nat × String) → Option (Nat × String)
  | [] => none
  | f :: fs =>
      match newestFile fs with
      | none => some f
      | some m => if m.1 > f.1 then some m else some f

/-- `PhishingDomainService.find_latest_phishing_file`: serve the content
of the newest `.txt` file of the directory. -/
def find_latest_phishing_file (files : List (Nat × String)) :
    Option String :=
  (newestFile files).map Prod.snd

/-! ## Scheduler model (`src/app.py`) -/

/-- What a scheduled job's handler does on one run. -/
inductive HandlerResult where
  | ok
  | raises (msg : String)
deriving DecidableEq, Repr

/-- Outcome recorded for a run of a scheduled job. -/
inductive JobOutcome where
  | success
  | error
deriving DecidableEq, Repr

/-- The record left behind by one run of a job wrapper: the job's name,
its outcome, and how many error log entries it produced. -/
structure ExecutionRecord where
  job : String
  outcome : JobOutcome
  errorLogs : Nat
deriving DecidableEq, Repr

/-- One of the `run_*_collector` wrappers of `FlaskApp`: the collector
call is wrapped in `try/except Exception`, so a raising handler is
caught inside the wrapper and produces exactly one `logger.error` entry;
the wrapper itself never raises. -/
def run_job_wrapper (name : String) (h : HandlerResult) : ExecutionRecord :=
  match h with
  | .ok => { job := name, outcome := .success, errorLogs := 0 }
  | .raises _ => { job := name, outcome := .error, errorLogs := 1 }

/-- `schedule.run_pending()` over the due jobs of one tick: every due
job's wrapper runs, in registration order. -/
def scheduler_tick (jobs : List (String × HandlerResult)) :
    List ExecutionRecord :=
  jobs.map (fun j => run_job_wrapper j.1 j.2)

/-- The `run_schedule` loop of `FlaskApp.start_scheduler`: each iteration
runs `schedule.run_pending()` inside `try/except`, so every tick is
processed whatever the previous ticks did. -/
def run_schedule_steps
    (ticks : List (List (String × HandlerResult))) :
    List (List ExecutionRecord) :=
  ticks.map scheduler_tick

/-! ## Helper lemmas -/

theorem mem_insertDesc {x y : String × Int} {l : List (String × Int)} :
    y ∈ insertDesc x l ↔ y = x ∨ y ∈ l := by
  induction l with
  | nil => simp [insertDesc]
  | cons a t ih =>
    by_cases h : a.2 ≤ x.2
    · simp [insertDesc, h]
    · simp only [insertDesc, if_neg h, List.mem_cons, ih]
      tauto

theorem mem_sortDesc {y : String × Int} {l : List (String × Int)} :
    y ∈ sortDesc l ↔ y ∈ l := by
  induction l with
  | nil => simp [sortDesc]
  | cons a t ih => simp [sortDesc, mem_insertDesc, ih]

theorem pairwise_insertDesc {x : String × Int} {l : List (String × Int)}
    (h : l.Pairwise (fun a b => b.2 ≤ a.2)) :
    (insertDesc x l).Pairwise (fun a b => b.2 ≤ a.2) := by
  induction l with
  | nil => simp [insertDesc]
  | cons a t ih =>
    rcases List.pairwise_cons.mp h with ⟨ha, ht⟩
    by_cases hc : a.2 ≤ x.2
    · simp only [insertDesc, if_pos hc]
      refine List.pairwise_cons.mpr ⟨?_, h⟩
      intro b hb
      rcases List.mem_cons.mp hb with rfl | hb
      · exact hc
      · exact le_trans (ha b hb) hc
    · simp only [insertDesc, if_neg hc]
      refine List.pairwise_cons.mpr ⟨?_, ih ht⟩
      intro b hb
      rcases mem_insertDesc.mp hb with rfl | hb
      · omega
      · exact ha b hb

theorem pairwise_sortDesc (l : List (String × Int)) :
    (sortDesc l).Pairwise (fun a b => b.2 ≤ a.2) := by
  induction l with
  | nil => simp [sortDesc]
  | cons a t ih => exact pairwise_insertDesc ih

theorem head_sortDesc_max {l : List (String × Int)} {h : String × Int}
    (hh : (sortDesc l).head? = some h) : ∀ y ∈ l, y.2 ≤ h.2 := by
  intro y hy
  have hy' : y ∈ sortDesc l := mem_sortDesc.mpr hy
  cases hs : sortDesc l with
  | nil => rw [hs] at hh; simp at hh
  | cons a t =>
    rw [hs] at hh hy'
    have ha : a = h := by simpa using hh
    subst ha
    have hp := pairwise_sortDesc l
    rw [hs] at hp
    rcases List.mem_cons.mp hy' with rfl | hy2
    · exact le_refl _
    · exact (List.pairwise_cons.mp hp).1 y hy2

theorem mem_mark_ip_as_invalid (db : AbuseDB) (ip : String) :
    ip ∈ (mark_ip_as_invalid db ip).invalidIPs := by
  unfold mark_ip_as_invalid
  by_cases h : db.invalidIPs.any (fun v => decide (v = ip)) = true
  · rw [if_pos h]
    rcases List.any_eq_true.mp h with ⟨v, hv, he⟩
    have : v = ip := of_decide_eq_true he
    exact this ▸ hv
  · rw [if_neg h]
    simp

theorem mem_invalid_not_scraped {db : AbuseDB} {ip : String} {batch : Nat}
    (h : ip ∈ db.invalidIPs) : ip ∉ get_ips_to_scrape db batch := by
  intro hmem
  unfold get_ips_to_scrape at hmem
  rcases List.mem_filter.mp hmem with ⟨hmem1, _⟩
  rcases List.mem_map.mp hmem1 with ⟨r, hr, hfst⟩
  have hr2 : r ∈ sortDesc (db.combinedScores.filter (eligibleRow db)) :=
    List.take_subset _ _ hr
  have hr3 : r ∈ db.combinedScores.filter (eligibleRow db) :=
    mem_sortDesc.mp hr2
  rcases List.mem_filter.mp hr3 with ⟨_, helig⟩
  unfold eligibleRow at helig
  rw [Bool.and_eq_true, Bool.not_eq_true', Bool.not_eq_true'] at helig
  have hnone := List.any_eq_false.mp helig.2 ip h
  rw [hfst] at hnone
  simp at hnone

theorem keys_insertRow_of_any {t : List ReportRow} {r : ReportRow}
    (h : t.any (fun x => x.ip = r.ip) = true) :
    (insertRow t r).map (fun x => x.ip) = t.map (fun x => x.ip) := by
  unfold insertRow
  rw [if_pos h, List.map_map]
  apply List.map_congr_left
  intro x _
  by_cases hx : x.ip = r.ip
  · simp [hx]
  · simp [hx]

theorem nodup_keys_insertRow {t : List ReportRow} {r : ReportRow}
    (h : (t.map (fun x => x.ip)).Nodup) :
    ((insertRow t r).map (fun x => x.ip)).Nodup := by
  by_cases hany : t.any (fun x => decide (x.ip = r.ip)) = true
  · rw [keys_insertRow_of_any hany]
    exact h
  · unfold insertRow
    rw [if_neg hany, List.map_append]
    rw [List.nodup_append]
    refine ⟨h, List.nodup_singleton _, ?_⟩
    intro k hk
    have hne : ∀ x ∈ t, ¬(x.ip = r.ip) := by
      intro x hx hc
      exact hany (List.any_eq_true.mpr ⟨x, hx, decide_eq_true hc⟩)
    rcases List.mem_map.mp hk with ⟨x, hx, rfl⟩
    intro hc
    simp at hc
    exact hne x hx hc

theorem filter_map_replace_nil {t : List ReportRow} {r : ReportRow}
    (h : ∀ x ∈ t, ¬(x.ip = r.ip)) :
    (t.map (fun x => if x.ip = r.ip then r else x)).filter
      (fun x => x.ip = r.ip) = [] := by
  induction t with
  | nil => rfl
  | cons a t ih =>
    have ha := h a (List.mem_cons_self a t)
    have htail := ih (fun x hx => h x (List.mem_cons_of_mem a hx))
    rw [List.map_cons, if_neg ha,
      List.filter_cons_of_neg (by simpa using ha)]
    exact htail

theorem filter_map_replace {t : List ReportRow} {r : ReportRow}
    (h : (t.map (fun x => x.ip)).Nodup)
    (hany : t.any (fun x => decide (x.ip = r.ip)) = true) :
    (t.map (fun x => if x.ip = r.ip then r else x)).filter
      (fun x => x.ip = r.ip) = [r] := by
  induction t with
  | nil => simp at hany
  | cons a t ih =>
    have hnd : (t.map (fun x => x.ip)).Nodup := (List.nodup_cons.mp h).2
    have hna : a.ip ∉ t.map (fun x => x.ip) := (List.nodup_cons.mp h).1
    by_cases ha : a.ip = r.ip
    · have hne : ∀ x ∈ t, ¬(x.ip = r.ip) := by
        intro x hx hc
        apply hna
        have hm : x.ip ∈ t.map (fun y => y.ip) :=
          List.mem_map.mpr ⟨x, hx, rfl⟩
        rw [hc, ← ha] at hm
        exact hm
      rw [List.map_cons, if_pos ha,
        List.filter_cons_of_pos (by simp),
        filter_map_replace_nil hne]
    · have hany' : t.any (fun x => decide (x.ip = r.ip)) = true := by
        rcases List.any_eq_true.mp hany with ⟨x, hx, he⟩
        rcases List.mem_cons.mp hx with rfl | hx2
        · exact absurd (of_decide_eq_true he) ha
        · exact List.any_eq_true.mpr ⟨x, hx2, he⟩
      rw [List.map_cons, if_neg ha,
        List.filter_cons_of_neg (by simpa using ha)]
      exact ih hnd hany'

theorem filter_append_row {t : List ReportRow} {r : ReportRow}
    (hne : ∀ x ∈ t, ¬(x.ip = r.ip)) :
    (t ++ [r]).filter (fun x => x.ip = r.ip) = [r] := by
  induction t with
  | nil => simp
  | cons a t ih =>
    have ha := hne a (List.mem_cons_self a t)
    rw [List.cons_append, List.filter_cons_of_neg (by simpa using ha)]
    exact ih (fun x hx => hne x (List.mem_cons_of_mem a hx))

theorem filter_insertRow {t : List ReportRow} {r : ReportRow}
    (h : (t.map (fun x => x.ip)).Nodup) :
    (insertRow t r).filter (fun x => x.ip = r.ip) = [r] := by
  unfold insertRow
  by_cases hany : t.any (fun x => decide (x.ip = r.ip)) = true
  · rw [if_pos hany]
    exact filter_map_replace h hany
  · rw [if_neg hany]
    refine filter_append_row ?_
    intro x hx hc
    exact hany (List.any_eq_true.mpr ⟨x, hx, decide_eq_true hc⟩)

theorem find?_vt_upsert (l : List (String × Nat)) (ip : String) (now : Nat) :
    (vt_upsert l ip now).find? (fun v => v.1 = ip) = some (ip, now) := by
  unfold vt_upsert
  by_cases hany : l.any (fun v => decide (v.1 = ip)) = true
  · rw [if_pos hany]
    induction l with
    | nil => simp at hany
    | cons a t ih =>
      by_cases ha : a.1 = ip
      · simp [List.find?, ha]
      · have hany' : t.any (fun v => decide (v.1 = ip)) = true := by
          rcases List.any_eq_true.mp hany with ⟨v, hv, he⟩
          rcases List.mem_cons.mp hv with rfl | hv2
          · exact absurd (of_decide_eq_true he) ha
          · exact List.any_eq_true.mpr ⟨v, hv2, he⟩
        simp only [List.map_cons, if_neg ha]
        rw [List.find?_cons_of_neg _ (by simpa using ha)]
        exact ih hany'
  · rw [if_neg hany]
    have hne : ∀ v ∈ l, ¬(v.1 = ip) := by
      intro v hv hc
      exact hany (List.any_eq_true.mpr ⟨v, hv, decide_eq_true hc⟩)
    induction l with
    | nil => simp [List.find?]
    | cons a t ih =>
      have ha := hne a (List.mem_cons_self a t)
      rw [List.cons_append, List.find?_cons_of_neg _ (by simpa using ha)]
      exact ih (by
          intro hc
          exact hany (by
            simp only [List.any_cons, Bool.or_eq_true]
            exact Or.inr hc))
        (fun v hv => hne v (List.mem_cons_of_mem a hv))

/-! ## Claim theorems -/

/-- C1 counterexample: the concrete candidate 1.2.3.4 whose fetch fails
with a timeout / Cloudflare challenge is permanently marked in
`Invalid_IPs` by `scrape_ip_data`, and the next discovery cycle returns
no candidate at all — the candidate does not remain eligible, refuting
the claim that a transient fault is retried and never permanently
marked. -/
theorem claim_C1_counterexample :
    "1.2.3.4" ∈ ((scrape_ip_data
        { combinedScores := [("1.2.3.4", 50)], abuseReport := [],
          invalidIPs := [] }
        "1.2.3.4" FetchOutcome.timeoutOrChallenge "2024-01-01").1).invalidIPs ∧
    get_ips_to_scrape
      ((scrape_ip_data
        { combinedScores := [("1.2.3.4", 50)], abuseReport := [],
          invalidIPs := [] }
        "1.2.3.4" FetchOutcome.timeoutOrChallenge "2024-01-01").1) 100 = [] := by
  decide

/-- C1 (amended): on every exception during the fetch — the timeout /
Cloudflare-challenge case included — `scrape_ip_data` marks the candidate
in `Invalid_IPs` and returns no artifact, and any candidate present in
`Invalid_IPs` is excluded from every future discovery batch: the failure
is treated as permanent, never retried. -/
theorem claim_C1_theorem (db : AbuseDB) (ip now : String)
    (res : FetchOutcome) (hres : res.isFailure = true) (batch : Nat) :
    ip ∈ ((scrape_ip_data db ip res now).1).invalidIPs ∧
    (scrape_ip_data db ip res now).2 = none ∧
    ∀ db2 : AbuseDB, ip ∈ db2.invalidIPs →
      ip ∉ get_ips_to_scrape db2 batch := by
  cases res with
  | page isp score country label => simp [FetchOutcome.isFailure] at hres
  | timeoutOrChallenge =>
    exact ⟨mem_mark_ip_as_invalid db ip, rfl,
      fun db2 h2 => mem_invalid_not_scraped h2⟩
  | otherError m =>
    exact ⟨mem_mark_ip_as_invalid db ip, rfl,
      fun db2 h2 => mem_invalid_not_scraped h2⟩

/-- C1 witness: the amended theorem at the concrete candidate 1.2.3.4 and
a timeout outcome. -/
theorem claim_C1_witness :
    "1.2.3.4" ∈ ((scrape_ip_data
        { combinedScores := [("1.2.3.4", 50)], abuseReport := [],
          invalidIPs := [] }
        "1.2.3.4" FetchOutcome.timeoutOrChallenge "2024-01-02").1).invalidIPs ∧
    "1.2.3.4" ∉ get_ips_to_scrape
      { combinedScores := [("1.2.3.4", 50)], abuseReport := [],
        invalidIPs := ["1.2.3.4"] } 100 := by
  have h := claim_C1_theorem
    { combinedScores := [("1.2.3.4", 50)], abuseReport := [],
      invalidIPs := [] }
    "1.2.3.4" "2024-01-02" FetchOutcome.timeoutOrChallenge rfl 100
  exact ⟨h.1, h.2.2 _ (by decide)⟩

/-- C2 counterexample: two consecutive error cycles of the AbuseIPDB
continuous loop sleep [60, 60] under two different randomness sources —
the delay does not escalate on the second consecutive error and includes
no jitter, refuting the claimed escalating jittered backoff. -/
theorem claim_C2_counterexample :
    abuseipdb_delay_seq [AbuseOutcome.error, AbuseOutcome.error]
      (fun _ => 0) = [60, 60] ∧
    abuseipdb_delay_seq [AbuseOutcome.error, AbuseOutcome.error]
      (fun n => 37 * n + 5) = [60, 60] := by
  decide

/-- C2 (amended): the delays of the continuous workers are fixed per
outcome — the AbuseIPDB worker sleeps a constant that ignores the
randomness source and the error history (60 s after every error), and
the VirusTotal worker sleeps a fixed 60 s after a failed cycle, with
jitter only on its success path (30–40 s). -/
theorem claim_C2_theorem (o : AbuseOutcome) (r1 r2 : Nat) (s1 : Nat) :
    abuseipdb_cycle_delay AbuseOutcome.error r1 = 60 ∧
    abuseipdb_cycle_delay o r1 = abuseipdb_cycle_delay o r2 ∧
    vt_cycle_delay VTOutcome.scrapeFail s1 = 60 ∧
    vt_cycle_delay VTOutcome.exn s1 = 60 ∧
    30 ≤ vt_cycle_delay VTOutcome.success s1 ∧
    vt_cycle_delay VTOutcome.success s1 ≤ 40 := by
  refine ⟨rfl, ?_, rfl, rfl, ?_, ?_⟩
  · cases o <;> rfl
  · show 30 ≤ 30 + s1 % 11
    omega
  · show 30 + s1 % 11 ≤ 40
    omega

/-- C3: `mark_ip_as_invalid` durably inserts the candidate into
`Invalid_IPs`, and every candidate present in `Invalid_IPs` is excluded
from the result of `get_ips_to_scrape` on any database state and batch
size — once marked invalid, discovery never returns it again. -/
theorem claim_C3_theorem (db : AbuseDB) (ip : String) (batch : Nat) :
    ip ∈ (mark_ip_as_invalid db ip).invalidIPs ∧
    ∀ db2 : AbuseDB, ip ∈ db2.invalidIPs →
      ip ∉ get_ips_to_scrape db2 batch :=
  ⟨mem_mark_ip_as_invalid db ip, fun _ h2 => mem_invalid_not_scraped h2⟩

/-- C3 witness: the theorem at the concrete candidate 5.5.5.5. -/
theorem claim_C3_witness :
    "5.5.5.5" ∈ (mark_ip_as_invalid
      { combinedScores := [("5.5.5.5", 77)], abuseReport := [],
        invalidIPs := [] } "5.5.5.5").invalidIPs ∧
    "5.5.5.5" ∉ get_ips_to_scrape
      { combinedScores := [("5.5.5.5", 77)], abuseReport := [],
        invalidIPs := ["5.5.5.5"] } 10 := by
  have h := claim_C3_theorem
    { combinedScores := [("5.5.5.5", 77)], abuseReport := [],
      invalidIPs := [] } "5.5.5.5" 10
  exact ⟨h.1, h.2 _ (by decide)⟩

/-- C4: the upsert of `insert_data` is last-write-wins keyed by
`ip_address` — starting from a report table whose keys are unique,
upserting artifacts `a1` then `a2` for the same candidate `c` leaves
exactly one stored row for `c`, and that row is the one derived from
`a2`. -/
theorem claim_C4_theorem (db : AbuseDB)
    (hnd : (db.abuseReport.map (fun x => x.ip)).Nodup)
    (c : String) (a1 a2 : ScrapedData) (h1 : a1.ip = c) (h2 : a2.ip = c) :
    ((insert_data (insert_data db a1) a2).abuseReport.filter
      (fun x => x.ip = c)) = [mkRow a2] := by
  subst h2
  exact @filter_insertRow (insertRow db.abuseReport (mkRow a1)) (mkRow a2)
    (nodup_keys_insertRow hnd)

/-- C4 witness: two successive upserts for candidate 9.9.9.9 on an empty
table leave exactly the row of the second artifact. -/
theorem claim_C4_witness :
    ((insert_data (insert_data
        { combinedScores := [], abuseReport := [], invalidIPs := [] }
        { ip := "9.9.9.9", isp := "A", score := 10, country := "X",
          label := none, update_time := "t1" })
        { ip := "9.9.9.9", isp := "B", score := 99, country := "Y",
          label := some "botnet", update_time := "t2" }).abuseReport.filter
      (fun x => x.ip = "9.9.9.9")) =
    [mkRow { ip := "9.9.9.9", isp := "B", score := 99, country := "Y",
             label := some "botnet", update_time := "t2" }] :=
  claim_C4_theorem
    { combinedScores := [], abuseReport := [], invalidIPs := [] }
    (by decide) "9.9.9.9" _ _ rfl rfl

theorem concatAll_append (a b : List String) :
    concatAll (a ++ b) = concatAll a ++ concatAll b := by
  induction a with
  | nil => simp [concatAll]
  | cons s ss ih => simp [concatAll, ih, String.append_assoc]

/-- C5 counterexample: while `save_to_txt` is writing a two-record
artifact and has written one record, the newest-file reader selects the
file being written (it already exists at the final path with the
greatest creation time) and serves its content, which differs from the
finished artifact — a reader can observe a partially written artifact,
refuting atomic publication. -/
theorem claim_C5_counterexample :
    find_latest_phishing_file
      [(1, fileContent [("u0", "3.3.3.3")]),
       (2, fileContentAfter [("u1", "1.1.1.1"), ("u2", "2.2.2.2")] 1)] =
      some (fileContentAfter [("u1", "1.1.1.1"), ("u2", "2.2.2.2")] 1) ∧
    fileContentAfter [("u1", "1.1.1.1"), ("u2", "2.2.2.2")] 1 ≠
      fileContent [("u1", "1.1.1.1"), ("u2", "2.2.2.2")] := by
  decide

/-- C5 (amended): `save_to_txt` writes record by record directly to the
final destination path, so the observable file content after `k` written
records is a prefix of the finished artifact — a concurrent newest-file
reader can observe such a proper prefix rather than only the complete
artifact. -/
theorem claim_C5_theorem (records : List (String × String)) (k : Nat) :
    ∃ rest, fileContent records = fileContentAfter records k ++ rest := by
  refine ⟨concatAll (((writtenRecords records).drop k).map phishingLine), ?_⟩
  rw [fileContent, fileContentAfter, ← concatAll_append, ← List.map_append,
    List.take_append_drop]

/-- C6 counterexample: calling `stop_collection` on a running AbuseIPDB
worker whose driver and connection are open clears the running flag but
leaves both the driver and the connection open — the held lease is not
released before the worker stops, refuting the claim. -/
theorem claim_C6_counterexample :
    (abuse_stop_collection
      { running := true, driverOpen := true, connOpen := true }).running
        = false ∧
    (abuse_stop_collection
      { running := true, driverOpen := true, connOpen := true }).driverOpen
        = true ∧
    (abuse_stop_collection
      { running := true, driverOpen := true, connOpen := true }).connOpen
        = true := by
  decide

/-- C6 (amended): `stop_collection` clears the cooperative running flag,
so the loop guard fails and no new fetch starts; the AbuseIPDB worker's
webdriver and database connection stay exactly as they were (never
released by stop), while the VirusTotal worker's `stop_collection` does
quit its driver. -/
theorem claim_C6_theorem (s : AbuseWorkerState) (t : VTWorkerState) :
    (abuse_stop_collection s).running = false ∧
    abuse_loop_continues (abuse_stop_collection s) = false ∧
    (abuse_stop_collection s).driverOpen = s.driverOpen ∧
    (abuse_stop_collection s).connOpen = s.connOpen ∧
    (vt_stop_collection t).running = false ∧
    (vt_stop_collection t).driverOpen = false :=
  ⟨rfl, rfl, rfl, rfl, rfl, rfl⟩

/-- C7: after the first error cycle runs `close()` (which quits the
driver and closes the connection but never deletes the `driver` / `conn`
attributes), the `hasattr` guard at the top of the next cycle — and of
every later cycle — sees both attributes present and skips re-setup, so
the next unit of work runs against dead handles; the lease is never
re-acquired, confirming the coded behavior at the failing input. -/
theorem claim_C7_theorem :
    abuse_cycle_setup (abuse_close abuse_init) =
      { hasDriverAttr := true, hasConnAttr := true,
        driverAlive := false, connAlive := false } ∧
    abuse_cycle_setup (abuse_close
        (abuse_cycle_setup (abuse_close abuse_init))) =
      { hasDriverAttr := true, hasConnAttr := true,
        driverAlive := false, connAlive := false } := by
  decide

/-- C8: a scheduled job whose handler raises is caught at its wrapper and
produces exactly one error record (one `logger.error` entry); the other
jobs of the same tick produce exactly the records they would produce
anyway, in order, and the scheduler loop goes on to process every later
tick; a non-raising handler produces a success record with no error
entry. -/
theorem claim_C8_theorem (pre post : List (String × HandlerResult))
    (name m : String) (rest : List (List (String × HandlerResult))) :
    scheduler_tick (pre ++ (name, HandlerResult.raises m) :: post) =
      scheduler_tick pre ++
        ({ job := name, outcome := JobOutcome.error, errorLogs := 1 } :
          ExecutionRecord) :: scheduler_tick post ∧
    (scheduler_tick (pre ++ (name, HandlerResult.raises m) :: post)).length =
      pre.length + 1 + post.length ∧
    run_schedule_steps
        ((pre ++ (name, HandlerResult.raises m) :: post) :: rest) =
      scheduler_tick (pre ++ (name, HandlerResult.raises m) :: post) ::
        rest.map scheduler_tick ∧
    (∀ nm, run_job_wrapper nm HandlerResult.ok =
      { job := nm, outcome := JobOutcome.success, errorLogs := 0 }) := by
  refine ⟨?_, ?_, rfl, fun nm => rfl⟩
  · simp [scheduler_tick, run_job_wrapper]
  · simp [scheduler_tick]
    omega

/-- C9: every address returned by `get_ips_to_scrape` matches none of the
private / reserved prefixes of `invalid_ip_pattern` — not 0., 10., 127.,
169.254., 172.16.–172.31., 192.168., 224. nor 240. — whatever the
database contents, the scores, and the batch size. -/
theorem claim_C9_theorem (db : AbuseDB) (batch : Nat) (ip : String)
    (h : ip ∈ get_ips_to_scrape db batch) :
    strStartsWith ip "0." = false ∧ strStartsWith ip "10." = false ∧
    strStartsWith ip "127." = false ∧ strStartsWith ip "169.254." = false ∧
    matches172Range ip = false ∧ strStartsWith ip "192.168." = false ∧
    strStartsWith ip "224." = false ∧ strStartsWith ip "240." = false := by
  have hv := (List.mem_filter.mp h).2
  simp only [is_valid_public_ip, Bool.not_eq_true'] at hv
  simp only [matchesPrivatePattern, Bool.or_eq_false_iff] at hv
  obtain ⟨⟨⟨⟨⟨⟨⟨h1, h2⟩, h3⟩, h4⟩, h5⟩, h6⟩, h7⟩, h8⟩ := hv
  exact ⟨h1, h2, h3, h4, h5, h6, h7, h8⟩

/-- C9 witness: the theorem at a concrete discovery state in which
8.8.8.8 is returned (and 192.168.0.1, despite its higher score, is
not). -/
theorem claim_C9_witness :
    strStartsWith "8.8.8.8" "0." = false ∧
    strStartsWith "8.8.8.8" "10." = false ∧
    strStartsWith "8.8.8.8" "127." = false ∧
    strStartsWith "8.8.8.8" "169.254." = false ∧
    matches172Range "8.8.8.8" = false ∧
    strStartsWith "8.8.8.8" "192.168." = false ∧
    strStartsWith "8.8.8.8" "224." = false ∧
    strStartsWith "8.8.8.8" "240." = false :=
  claim_C9_theorem
    { combinedScores := [("8.8.8.8", 90), ("192.168.0.1", 99)],
      abuseReport := [], invalidIPs := [] }
    10 "8.8.8.8" (by decide)

theorem vt_eligible_after_update (db : VTDB) (ip : String) (t0 t1 : Nat)
    (s : Int) (hlt : t0 + oneDay < t1) :
    vt_eligible (vt_update_db db ip t0) t1 (ip, s) = true := by
  have hf := find?_vt_upsert db.vtInfo ip t0
  show (match (vt_upsert db.vtInfo ip t0).find?
      (fun v => decide (v.1 = ip)) with
    | none => true
    | some v => decide (v.2 + oneDay < t1)) = true
  rw [hf]
  exact decide_eq_true hlt

/-- C10: `get_ip_from_db` yields at most one candidate per cycle; when it
yields one, that candidate is an `AbuseIPDB_IP_Report` row that either
has no `VirusTotal_IP_Info` record or a record older than one day, and
its score is maximal among all such rows; and after `update_db` stamps a
candidate at time `t0`, the candidate is eligible again at any time
beyond `t0` plus one day — the selection is freshness-bounded, not
permanent. -/
theorem claim_C10_theorem (db : VTDB) (now : Nat) :
    (∀ ip, get_ip_from_db db now = some ip →
      ∃ s : Int, (ip, s) ∈ db.abuseReport ∧
        vt_eligible db now (ip, s) = true ∧
        ∀ r ∈ db.abuseReport, vt_eligible db now r = true → r.2 ≤ s) ∧
    (∀ ip t0 t1 s, t0 + oneDay < t1 →
      vt_eligible (vt_update_db db ip t0) t1 (ip, s) = true) := by
  constructor
  · intro ip hip
    unfold get_ip_from_db at hip
    rcases Option.map_eq_some'.mp hip with ⟨h, hh, hfst⟩
    have hmem : h ∈ sortDesc (db.abuseReport.filter (vt_eligible db now)) := by
      cases hs : sortDesc (db.abuseReport.filter (vt_eligible db now)) with
      | nil => rw [hs] at hh; simp at hh
      | cons a t =>
        rw [hs] at hh
        have ha : a = h := by simpa using hh
        rw [← ha]
        exact List.mem_cons_self a t
    have hmem2 : h ∈ db.abuseReport.filter (vt_eligible db now) :=
      mem_sortDesc.mp hmem
    have hrep : h ∈ db.abuseReport := (List.mem_filter.mp hmem2).1
    have helig : vt_eligible db now h = true := (List.mem_filter.mp hmem2).2
    refine ⟨h.2, ?_, ?_, ?_⟩
    · rw [← hfst]
      simpa using hrep
    · rw [← hfst]
      simpa using helig
    · intro r hr hre
      exact head_sortDesc_max hh r (List.mem_filter.mpr ⟨hr, hre⟩)
  · intro ip t0 t1 s hlt
    exact vt_eligible_after_update db ip t0 t1 s hlt

/-- C10 witness: on a concrete state the selected candidate is the
highest-score stale row, and a freshly stamped candidate is eligible
again one day plus one second later. -/
theorem claim_C10_witness :
    (∃ s : Int, ("2.2.2.2", s) ∈
        ({ abuseReport := [("1.1.1.1", 10), ("2.2.2.2", 90)],
           vtInfo := [("2.2.2.2", 0)] } : VTDB).abuseReport ∧
      vt_eligible
        { abuseReport := [("1.1.1.1", 10), ("2.2.2.2", 90)],
          vtInfo := [("2.2.2.2", 0)] } 100000 ("2.2.2.2", s) = true ∧
      ∀ r ∈ ({ abuseReport := [("1.1.1.1", 10), ("2.2.2.2", 90)],
               vtInfo := [("2.2.2.2", 0)] } : VTDB).abuseReport,
        vt_eligible
          { abuseReport := [("1.1.1.1", 10), ("2.2.2.2", 90)],
            vtInfo := [("2.2.2.2", 0)] } 100000 r = true → r.2 ≤ s) ∧
    vt_eligible (vt_update_db
        { abuseReport := [("1.1.1.1", 10), ("2.2.2.2", 90)],
          vtInfo := [("2.2.2.2", 0)] } "7.7.7.7" 100) 86501
      ("7.7.7.7", 50) = true := by
  have h := claim_C10_theorem
    { abuseReport := [("1.1.1.1", 10), ("2.2.2.2", 90)],
      vtInfo := [("2.2.2.2", 0)] } 100000
  exact ⟨h.1 "2.2.2.2" (by decide), h.2 "7.7.7.7" 100 86501 50 (by decide)⟩
